import Mathlib

/-!
Shallow embedding of the lead-qualification service in `src/server.js`
(`classifyLead`, the `POST /lead` handler, and their helpers).

Strings are modelled as Lean `String` / `List Char`.  JavaScript's
`String.prototype.includes` is modelled by `containsB` (substring search),
`String.prototype.toLowerCase` by `Char.toLower` mapped over the characters
(the rule keys and hard negatives are ASCII, which is the range the two
functions agree on), and `String.prototype.trim` by `trimL`.
-/

namespace LeadQual

/-- Boolean prefix test on character lists. -/
def isPrefixB : List Char → List Char → Bool
  | [], _ => true
  | _ :: _, [] => false
  | a :: as, b :: bs => a == b && isPrefixB as bs

/-- `containsB key m` models JavaScript `m.includes(key)`:
`key` occurs somewhere in `m` as a contiguous substring. -/
def containsB (key : List Char) : List Char → Bool
  | [] => key.isEmpty
  | c :: ms => isPrefixB key (c :: ms) || containsB key ms

/-- `trimL` models JavaScript `String.prototype.trim`: drop leading and
trailing whitespace. -/
def trimL (l : List Char) : List Char :=
  ((l.dropWhile Char.isWhitespace).reverse.dropWhile Char.isWhitespace).reverse

/-- One scoring rule of `classifyLead`: a lowercase phrase to search for,
a positive point value, and a human-readable reason. -/
structure SignalRule where
  key : List Char
  points : Nat
  reason : String
  deriving Repr, DecidableEq

/-- The `highSignals` table of `classifyLead` (src/server.js lines 144-163),
in declaration order. -/
def highSignals : List SignalRule := [
  ⟨"asap".data, 3, "Urgent timeline"⟩,
  ⟨"next month".data, 3, "Near-term intent"⟩,
  ⟨"starting".data, 2, "Start date mentioned"⟩,
  ⟨"within".data, 2, "Defined timeline window"⟩,
  ⟨"by".data, 1, "Deadline mentioned"⟩,
  ⟨"premium".data, 2, "Premium service language"⟩,
  ⟨"proposal".data, 2, "Requesting a proposal"⟩,
  ⟨"quote".data, 2, "Requesting a quote"⟩,
  ⟨"budget".data, 2, "Budget mentioned"⟩,
  ⟨"scope".data, 2, "Scope mentioned"⟩,
  ⟨"requirements".data, 2, "Requirements mentioned"⟩,
  ⟨"deliverables".data, 2, "Deliverables mentioned"⟩,
  ⟨"contract".data, 2, "Contract language"⟩,
  ⟨"retainer".data, 2, "Retainer language"⟩,
  ⟨"call".data, 1, "Wants to discuss next steps"⟩,
  ⟨"meeting".data, 1, "Wants to discuss next steps"⟩]

/-- The `lowSignals` table of `classifyLead` (src/server.js lines 165-178),
in declaration order. -/
def lowSignals : List SignalRule := [
  ⟨"just curious".data, 4, "Low intent language"⟩,
  ⟨"maybe later".data, 3, "Uncertain timeline"⟩,
  ⟨"not sure".data, 3, "Uncertain intent"⟩,
  ⟨"whenever".data, 2, "No urgency"⟩,
  ⟨"someday".data, 2, "No timeline"⟩,
  ⟨"someone nice".data, 2, "Vague request language"⟩,
  ⟨"anything".data, 2, "Vague request language"⟩,
  ⟨"free".data, 4, "Low budget / free request"⟩,
  ⟨"cheap".data, 3, "Low investment signal"⟩,
  ⟨"urgent help pls".data, 3, "Low-signal / spammy phrasing"⟩]

/-- The `intentSignals` list of `classifyLead` (src/server.js lines 186-190). -/
def intentSignals : List (List Char) := [
  "asap".data, "next month".data, "starting".data, "within".data, "by".data,
  "proposal".data, "quote".data, "budget".data, "scope".data,
  "requirements".data, "deliverables".data,
  "contract".data, "retainer".data, "call".data, "meeting".data]

/-- The `hardNegatives` list of `classifyLead` (src/server.js line 194). -/
def hardNegatives : List (List Char) := ["hookups".data, "free dating app".data]

/-- `String(messageRaw).toLowerCase()` — the normalization step of
`classifyLead`. -/
def normalizeMsg (messageRaw : String) : List Char :=
  messageRaw.data.map Char.toLower

/-- `highSignals.filter(s => message.includes(s.key))` on a normalized
message. -/
def matchedHigh (message : List Char) : List SignalRule :=
  highSignals.filter (fun s => containsB s.key message)

/-- `lowSignals.filter(s => message.includes(s.key))` on a normalized
message. -/
def matchedLow (message : List Char) : List SignalRule :=
  lowSignals.filter (fun s => containsB s.key message)

/-- `intentSignals.some(k => message.includes(k))`. -/
def hasIntentSignal (message : List Char) : Bool :=
  intentSignals.any (fun k => containsB k message)

/-- `hardNegatives.some(k => message.includes(k))`. -/
def hasHardNegative (message : List Char) : Bool :=
  hardNegatives.any (fun k => containsB k message)

/-- The `scores` field of a classification result. -/
structure Scores where
  highScore : Nat
  lowScore : Nat
  netScore : Int
  deriving Repr, DecidableEq

/-- The `reasons` field of a classification result. -/
structure Reasons where
  high : List String
  low : List String
  deriving Repr, DecidableEq

/-- The value returned by `classifyLead`. -/
structure ClassificationResult where
  label : String
  scores : Scores
  reasons : Reasons
  deriving Repr, DecidableEq

/-- The `classifyLead` function of src/server.js (lines 141-212). -/
def classifyLead (messageRaw : String) : ClassificationResult :=
  let message := normalizeMsg messageRaw
  let mHigh := matchedHigh message
  let mLow := matchedLow message
  let highScore : Nat := mHigh.foldl (fun sum s => sum + s.points) 0
  let lowScore : Nat := mLow.foldl (fun sum s => sum + s.points) 0
  let netScore : Int := (highScore : Int) - (lowScore : Int)
  let label :=
    if !hasHardNegative message && hasIntentSignal message && decide (3 ≤ netScore)
      then "HIGH" else "LOW"
  { label := label
    scores := { highScore := highScore, lowScore := lowScore, netScore := netScore }
    reasons := {
      high := mHigh.map (fun s => s.reason ++ " (+" ++ toString s.points ++ ")")
      low := mLow.map (fun s => s.reason ++ " (-" ++ toString s.points ++ ")") } }

/-- The label is literally the guarded conditional of src/server.js
lines 199-202. -/
lemma classifyLead_label_eq (m : String) :
    (classifyLead m).label =
      (if !hasHardNegative (normalizeMsg m) && hasIntentSignal (normalizeMsg m) &&
          decide (3 ≤ (classifyLead m).scores.netScore)
        then "HIGH" else "LOW") := rfl

/-- C1: `label = HIGH` iff no hard negative, at least one intent signal, and
`netScore ≥ 3`; in every other case the label is `LOW`. -/
theorem classifyLead_label_high_iff (m : String) :
    ((classifyLead m).label = "HIGH" ↔
      (hasHardNegative (normalizeMsg m) = false ∧ hasIntentSignal (normalizeMsg m) = true ∧
        3 ≤ (classifyLead m).scores.netScore)) ∧
    ((classifyLead m).label = "LOW" ↔
      (hasHardNegative (normalizeMsg m) = true ∨ hasIntentSignal (normalizeMsg m) = false ∨
        (classifyLead m).scores.netScore < 3)) := by
  rw [classifyLead_label_eq]
  by_cases h1 : hasHardNegative (normalizeMsg m) = true <;>
    by_cases h2 : hasIntentSignal (normalizeMsg m) = true <;>
      by_cases h3 : 3 ≤ (classifyLead m).scores.netScore <;>
        simp [h1, h2, h3, not_le, show ("LOW" : String) ≠ "HIGH" by decide,
          show ("HIGH" : String) ≠ "LOW" by decide] <;>
        omega

/-- C3: the end-to-end scenario-1 message matches exactly the high-signal
rules asap(+3), within(+2), proposal(+2), quote(+2), budget(+2), no low
rules, so highScore 11, lowScore 0, netScore 11, the intent gate passes and
the label is HIGH. -/
theorem classifyLead_scenario1 :
    (classifyLead "I need this ASAP, please send a proposal and quote within this week. Budget is approved.").label = "HIGH" ∧
    (classifyLead "I need this ASAP, please send a proposal and quote within this week. Budget is approved.").scores = ⟨11, 0, 11⟩ ∧
    (matchedHigh (normalizeMsg "I need this ASAP, please send a proposal and quote within this week. Budget is approved.")).map
        (fun s => (s.key, s.points)) =
      [("asap".data, 3), ("within".data, 2), ("proposal".data, 2), ("quote".data, 2), ("budget".data, 2)] ∧
    (matchedLow (normalizeMsg "I need this ASAP, please send a proposal and quote within this week. Budget is approved.")) = [] ∧
    hasIntentSignal (normalizeMsg "I need this ASAP, please send a proposal and quote within this week. Budget is approved.") = true := by
  refine ⟨rfl, rfl, rfl, rfl, rfl⟩

/-- C4: a hard-negative phrase anywhere in the lower-cased message forces the
label to LOW, regardless of everything else. -/
theorem classifyLead_hardNegative_forces_low (m : String)
    (h : containsB "hookups".data (normalizeMsg m) = true ∨
        containsB "free dating app".data (normalizeMsg m) = true) :
    (classifyLead m).label = "LOW" := by
  have hneg : hasHardNegative (normalizeMsg m) = true := by
    unfold hasHardNegative hardNegatives
    rcases h with h | h <;> simp [List.any_cons, h]
  rw [classifyLead_label_eq, hneg]
  rfl

/-- Witness for C4 at the spec's scenario-4 message. -/
theorem classifyLead_hardNegative_forces_low_witness :
    (classifyLead "interested in hookups asap").label = "LOW" :=
  classifyLead_hardNegative_forces_low "interested in hookups asap" (Or.inl (by decide))

/-- C2 counterexample: `"retainer"` IS a member of `intentSignals`
(src/server.js line 189), and the message `"premium retainer"` — whose only
matched high-signal rules are the allegedly non-intent phrases "premium" and
"retainer" — classifies as HIGH, not LOW. -/
theorem intentSignals_contains_retainer :
    "retainer".data ∈ intentSignals ∧
    (classifyLead "premium retainer").label = "HIGH" := by
  refine ⟨by decide, rfl⟩

/-- C2 amended: the `intentSignals` list is exactly the `highSignals` key
list with only `"premium"` removed (in particular `"retainer"` is an intent
signal), and any message whose lower-cased form contains no intent-set
phrase is labelled LOW regardless of its score. -/
theorem intentSignals_exclude_premium_only :
    (intentSignals =
      (highSignals.map (fun s => s.key)).filter (fun k => !(k == "premium".data))) ∧
    ∀ m : String, hasIntentSignal (normalizeMsg m) = false →
      (classifyLead m).label = "LOW" := by
  refine ⟨by decide, fun m h => ?_⟩
  rw [classifyLead_label_eq, h]
  simp

/-- Witness for the amended C2: a message matching only "premium" is LOW. -/
theorem intentSignals_exclude_premium_only_witness :
    (classifyLead "premium premium").label = "LOW" :=
  intentSignals_exclude_premium_only.2 "premium premium" (by decide)

/-- `reduce((sum, s) => sum + s.points, 0)` is the sum of the points of the
list. -/
lemma foldl_points_eq_sum (l : List SignalRule) (n : Nat) :
    l.foldl (fun sum s => sum + s.points) n = n + (l.map (fun s => s.points)).sum := by
  induction l generalizing n with
  | nil => simp
  | cons a as ih => simp [List.foldl_cons, ih]; omega

/-- C5: scores depend only on WHICH rules match, never on how often a key
phrase occurs: two messages matching the same rules get the same
`highScore` and `lowScore`. -/
theorem score_counts_each_rule_once (m₁ m₂ : String)
    (hh : ∀ s ∈ highSignals,
      containsB s.key (normalizeMsg m₁) = containsB s.key (normalizeMsg m₂))
    (hl : ∀ s ∈ lowSignals,
      containsB s.key (normalizeMsg m₁) = containsB s.key (normalizeMsg m₂)) :
    (classifyLead m₁).scores.highScore = (classifyLead m₂).scores.highScore ∧
    (classifyLead m₁).scores.lowScore = (classifyLead m₂).scores.lowScore := by
  have h1 : matchedHigh (normalizeMsg m₁) = matchedHigh (normalizeMsg m₂) :=
    List.filter_congr (fun s hs => by rw [hh s hs])
  have h2 : matchedLow (normalizeMsg m₁) = matchedLow (normalizeMsg m₂) :=
    List.filter_congr (fun s hs => by rw [hl s hs])
  constructor
  · show (matchedHigh (normalizeMsg m₁)).foldl (fun sum s => sum + s.points) 0 =
      (matchedHigh (normalizeMsg m₂)).foldl (fun sum s => sum + s.points) 0
    rw [h1]
  · show (matchedLow (normalizeMsg m₁)).foldl (fun sum s => sum + s.points) 0 =
      (matchedLow (normalizeMsg m₂)).foldl (fun sum s => sum + s.points) 0
    rw [h2]

/-- Witness for C5: "asap asap asap" scores exactly like a single "asap". -/
theorem score_counts_each_rule_once_witness :
    (classifyLead "asap asap asap").scores.highScore =
      (classifyLead "asap").scores.highScore ∧
    (classifyLead "asap asap asap").scores.lowScore =
      (classifyLead "asap").scores.lowScore :=
  score_counts_each_rule_once "asap asap asap" "asap" (by decide) (by decide)

/-- C6: `reasons.high` is exactly the matched high-signal rules, kept in the
fixed declaration order of `highSignals` (a sublist of the fully rendered
declaration-order list), each rendered as `"<reason> (+<points>)"`; likewise
`reasons.low` with `"<reason> (-<points>)"`. -/
theorem reasons_rendering (m : String) :
    ((classifyLead m).reasons.high =
      (highSignals.filter (fun s => containsB s.key (normalizeMsg m))).map
        (fun s => s.reason ++ " (+" ++ toString s.points ++ ")")) ∧
    List.Sublist (classifyLead m).reasons.high
      (highSignals.map (fun s => s.reason ++ " (+" ++ toString s.points ++ ")")) ∧
    ((classifyLead m).reasons.low =
      (lowSignals.filter (fun s => containsB s.key (normalizeMsg m))).map
        (fun s => s.reason ++ " (-" ++ toString s.points ++ ")")) ∧
    List.Sublist (classifyLead m).reasons.low
      (lowSignals.map (fun s => s.reason ++ " (-" ++ toString s.points ++ ")")) := by
  refine ⟨rfl, ?_, rfl, ?_⟩
  · exact List.Sublist.map _ (List.filter_sublist highSignals)
  · exact List.Sublist.map _ (List.filter_sublist lowSignals)

/-- Every intent-signal phrase is the key of a high-signal rule worth at
least one point. -/
lemma intent_key_is_high_key :
    ∀ k ∈ intentSignals, ∃ s ∈ highSignals, s.key = k ∧ 1 ≤ s.points := by decide

/-- C9: a HIGH label always comes with at least one matched high-signal
rule: `reasons.high` is non-empty and `highScore ≥ 1`. -/
theorem high_label_has_high_reason (m : String)
    (h : (classifyLead m).label = "HIGH") :
    (classifyLead m).reasons.high ≠ [] ∧ 1 ≤ (classifyLead m).scores.highScore := by
  rw [classifyLead_label_eq] at h
  by_cases h2 : hasIntentSignal (normalizeMsg m) = true
  · obtain ⟨k, hk, hck⟩ := List.any_eq_true.mp h2
    obtain ⟨s, hs, hkey, hpts⟩ := intent_key_is_high_key k hk
    have hmem : s ∈ matchedHigh (normalizeMsg m) :=
      List.mem_filter.mpr ⟨hs, by rw [hkey]; exact hck⟩
    constructor
    · show (matchedHigh (normalizeMsg m)).map
        (fun s => s.reason ++ " (+" ++ toString s.points ++ ")") ≠ []
      rw [Ne, List.map_eq_nil_iff]
      exact List.ne_nil_of_mem hmem
    · show 1 ≤ (matchedHigh (normalizeMsg m)).foldl (fun sum s => sum + s.points) 0
      rw [foldl_points_eq_sum]
      have hle : s.points ≤ ((matchedHigh (normalizeMsg m)).map (fun s => s.points)).sum :=
        List.single_le_sum (fun x _ => Nat.zero_le x) s.points
          (List.mem_map_of_mem (fun s => s.points) hmem)
      omega
  · exfalso
    rw [Bool.not_eq_true] at h2
    rw [h2] at h
    simp at h

/-- Witness for C9 at a concrete HIGH-classified message. -/
theorem high_label_has_high_reason_witness :
    (classifyLead "asap proposal").reasons.high ≠ [] ∧
    1 ≤ (classifyLead "asap proposal").scores.highScore :=
  high_label_has_high_reason "asap proposal" (by decide)

/-- `String(v || "").trim()` as applied to every incoming field of the
`POST /lead` handler (src/server.js lines 280, 284-287). -/
def jsCleanField (v : Option String) : List Char :=
  trimL (v.getD "").data

/-- ASCII lowercasing fixes whitespace characters. -/
lemma toLower_of_whitespace (c : Char) (h : c.isWhitespace = true) :
    c.toLower = c := by
  simp [Char.isWhitespace] at h
  rcases h with ((h | h) | h) | h <;> subst h <;> decide

/-- A prefix of an all-whitespace list is all-whitespace. -/
lemma isPrefixB_whitespace (key l : List Char)
    (hl : ∀ c ∈ l, c.isWhitespace = true) (hp : isPrefixB key l = true) :
    ∀ c ∈ key, c.isWhitespace = true := by
  induction key generalizing l with
  | nil => intro c hc; cases hc
  | cons a as ih =>
    cases l with
    | nil => cases hp
    | cons b bs =>
      rw [isPrefixB, Bool.and_eq_true, beq_iff_eq] at hp
      intro c hc
      rcases List.mem_cons.mp hc with rfl | hc
      · rw [hp.1]; exact hl b (List.mem_cons_self b bs)
      · exact ih bs (fun c hc => hl c (List.mem_cons_of_mem b hc)) hp.2 c hc

/-- A phrase with a non-whitespace character never occurs inside an
all-whitespace message. -/
lemma containsB_whitespace_false (key msg : List Char)
    (hmsg : ∀ c ∈ msg, c.isWhitespace = true)
    (hkey : ∃ c ∈ key, c.isWhitespace = false) :
    containsB key msg = false := by
  induction msg with
  | nil =>
    obtain ⟨c, hc, _⟩ := hkey
    rw [containsB]
    cases key with
    | nil => cases hc
    | cons a as => rfl
  | cons b bs ih =>
    rw [containsB, Bool.or_eq_false_iff]
    constructor
    · cases hpre : isPrefixB key (b :: bs) with
      | false => rfl
      | true =>
        obtain ⟨c, hc, hcw⟩ := hkey
        have := isPrefixB_whitespace key (b :: bs) hmsg hpre c hc
        rw [this] at hcw
        cases hcw
    · exact ih (fun c hc => hmsg c (List.mem_cons_of_mem b hc))

/-- Every rule key and gating phrase contains a non-whitespace character. -/
lemma signal_keys_have_ink :
    (∀ s ∈ highSignals, ∃ c ∈ s.key, c.isWhitespace = false) ∧
    (∀ s ∈ lowSignals, ∃ c ∈ s.key, c.isWhitespace = false) ∧
    (∀ k ∈ intentSignals, ∃ c ∈ k, c.isWhitespace = false) := by decide

/-- C7: the handler normalizes a missing, empty, or whitespace-only message
field to the empty string, and `classifyLead` on any whitespace-only (or
empty) message yields LOW with scores `{0, 0, 0}` and both reason lists
empty. -/
theorem empty_message_classifies_low :
    (jsCleanField none = [] ∧ jsCleanField (some "") = [] ∧
      jsCleanField (some "   ") = []) ∧
    ∀ m : String, (∀ c ∈ m.data, c.isWhitespace = true) →
      classifyLead m = ⟨"LOW", ⟨0, 0, 0⟩, ⟨[], []⟩⟩ := by
  refine ⟨⟨rfl, rfl, rfl⟩, fun m hm => ?_⟩
  have hnorm : ∀ c ∈ normalizeMsg m, c.isWhitespace = true := by
    intro c hc
    obtain ⟨c', hc', rfl⟩ := List.mem_map.mp hc
    rw [toLower_of_whitespace c' (hm c' hc')]
    exact hm c' hc'
  have hHigh : matchedHigh (normalizeMsg m) = [] :=
    List.filter_eq_nil_iff.mpr fun s hs => by
      rw [containsB_whitespace_false s.key _ hnorm (signal_keys_have_ink.1 s hs)]
      exact Bool.false_ne_true
  have hLow : matchedLow (normalizeMsg m) = [] :=
    List.filter_eq_nil_iff.mpr fun s hs => by
      rw [containsB_whitespace_false s.key _ hnorm (signal_keys_have_ink.2.1 s hs)]
      exact Bool.false_ne_true
  have hInt : hasIntentSignal (normalizeMsg m) = false :=
    List.any_eq_false.mpr fun k hk => by
      rw [containsB_whitespace_false k _ hnorm (signal_keys_have_ink.2.2 k hk)]
      exact Bool.false_ne_true
  show classifyLead m = _
  simp only [classifyLead]
  rw [hHigh, hLow, hInt]
  simp

/-- Witness for C7 at a single-space message. -/
theorem empty_message_classifies_low_witness :
    classifyLead " " = ⟨"LOW", ⟨0, 0, 0⟩, ⟨[], []⟩⟩ :=
  empty_message_classifies_low.2 " " (by decide)

/-- The body fields read by the `POST /lead` handler (src/server.js
line 277). Absent JSON fields are `none`. -/
structure LeadRequest where
  email : Option String
  phone : Option String
  whatsapp : Option String
  message : Option String
  company_website : Option String
  deriving Repr, DecidableEq

/-- Whether each of the handler's fallible I/O calls succeeds or throws on
this run. -/
structure EffectOutcomes where
  emailSendOk : Bool
  appendOk : Bool
  notionOk : Bool
  slackOk : Bool
  deriving Repr, DecidableEq

/-- The externally observable operations the handler can perform, in the
order the handler reaches them. -/
inductive Step where
  | classifyStep
  | emailSend
  | diskAppend
  | notionCreate
  | slackPost
  deriving Repr, DecidableEq

/-- What the handler hands back to the HTTP layer: a response, or an
uncaught exception (`thrown`) so that no success response is sent. -/
inductive HandlerResult where
  | ignoredOk
  | badRequest (error : String)
  | success (label : String)
  | slackErrorResponse
  | thrown
  deriving Repr, DecidableEq

/-- `isLikelyEmail` of src/server.js lines 97-100: trimmed value contains
`@` and `.` and has length at least 6. -/
def isLikelyEmail (value : List Char) : Bool :=
  let v := trimL value
  containsB "@".data v && containsB ".".data v && decide (6 ≤ v.length)

/-- The label the handler computes at src/server.js line 299. -/
def leadLabel (req : LeadRequest) : String :=
  (classifyLead (String.mk (jsCleanField req.message))).label

/-- The guard of the auto-response email attempt (src/server.js line 304):
HIGH label and a plausible email address. -/
def emailAttempted (req : LeadRequest) : Bool :=
  (leadLabel req == "HIGH") && isLikelyEmail (jsCleanField req.email)

/-- The steps performed up to and including the unguarded
`appendLeadToDisk` call (src/server.js lines 299-331): classification,
the optional caught email attempt, then the append. -/
def preAppendSteps (req : LeadRequest) : List Step :=
  Step.classifyStep ::
    ((if emailAttempted req then [Step.emailSend] else []) ++ [Step.diskAppend])

/-- All steps of a run that gets past the append: the caught Notion write
(HIGH only, src/server.js lines 337-362) and the Slack post
(lines 364-384). -/
def postAppendSteps (req : LeadRequest) : List Step :=
  preAppendSteps req ++
    (if leadLabel req == "HIGH" then [Step.notionCreate] else []) ++ [Step.slackPost]

/-- The `POST /lead` handler (src/server.js lines 276-385), modelled up to
its control flow: honeypot check, required-field checks, classification,
caught email attempt, uncaught disk append, caught Notion write, Slack post
(whose failure is the one surfaced as a 500 response). -/
def leadHandler (req : LeadRequest) (oc : EffectOutcomes) :
    HandlerResult × List Step :=
  if 0 < (jsCleanField req.company_website).length then
    (HandlerResult.ignoredOk, [])
  else if jsCleanField req.message = [] then
    (HandlerResult.badRequest "Message is required.", [])
  else if jsCleanField req.email = [] ∧ jsCleanField req.phone = [] ∧
      jsCleanField req.whatsapp = [] then
    (HandlerResult.badRequest
      "Provide at least one contact method: Email, Phone, or WhatsApp.", [])
  else if oc.appendOk = false then
    (HandlerResult.thrown, preAppendSteps req)
  else if oc.slackOk = true then
    (HandlerResult.success (leadLabel req), postAppendSteps req)
  else
    (HandlerResult.slackErrorResponse, postAppendSteps req)

/-- C8: a non-empty (after trimming) honeypot field makes the handler answer
`{ ok: true, ignored: true }` at once, with no classification, email,
persistence, Notion write, or Slack post — whatever the other fields and
I/O outcomes are. -/
theorem honeypot_short_circuits (req : LeadRequest) (oc : EffectOutcomes)
    (h : 0 < (jsCleanField req.company_website).length) :
    leadHandler req oc = (HandlerResult.ignoredOk, []) := by
  unfold leadHandler
  rw [if_pos h]

/-- Witness for C8: a bot-filled honeypot plus missing message and contact
fields. -/
theorem honeypot_short_circuits_witness :
    leadHandler ⟨none, none, none, none, some "http://bot.example"⟩
      ⟨true, true, true, true⟩ = (HandlerResult.ignoredOk, []) :=
  honeypot_short_circuits ⟨none, none, none, none, some "http://bot.example"⟩
    ⟨true, true, true, true⟩ (by decide)

/-- The steps before the append always include the append itself and never
the Notion write or the Slack post. -/
lemma preAppendSteps_spec (req : LeadRequest) :
    Step.diskAppend ∈ preAppendSteps req ∧
    Step.notionCreate ∉ preAppendSteps req ∧
    Step.slackPost ∉ preAppendSteps req := by
  unfold preAppendSteps
  cases emailAttempted req <;> decide

/-- A run that gets past the append performed the append. -/
lemma diskAppend_mem_postAppendSteps (req : LeadRequest) :
    Step.diskAppend ∈ postAppendSteps req := by
  unfold postAppendSteps
  exact List.mem_append_left _ (List.mem_append_left _ (preAppendSteps_spec req).1)

/-- C10: the disk append is not error-handled — if it is reached and
throws, the handler throws: no Notion write, no Slack post, no success
response; while a failed (caught) auto-response email attempt never
prevents the append from being reached. -/
theorem append_failure_is_fatal (req : LeadRequest) (oc : EffectOutcomes) :
    (oc.appendOk = false → Step.diskAppend ∈ (leadHandler req oc).2 →
      (leadHandler req oc).1 = HandlerResult.thrown ∧
      Step.notionCreate ∉ (leadHandler req oc).2 ∧
      Step.slackPost ∉ (leadHandler req oc).2) ∧
    (oc.emailSendOk = false → Step.emailSend ∈ (leadHandler req oc).2 →
      Step.diskAppend ∈ (leadHandler req oc).2) := by
  unfold leadHandler
  split_ifs with h1 h2 h3 h4 h5 <;>
    simp_all [preAppendSteps_spec req, diskAppend_mem_postAppendSteps req]

/-- Witness for C10: a HIGH lead with a plausible email; one run where the
append throws after the email attempt, one where only the email fails. -/
theorem append_failure_is_fatal_witness :
    ((leadHandler ⟨some "a@b.com", none, none, some "asap proposal", none⟩
        ⟨true, false, true, true⟩).1 = HandlerResult.thrown ∧
      Step.notionCreate ∉ (leadHandler ⟨some "a@b.com", none, none, some "asap proposal", none⟩
        ⟨true, false, true, true⟩).2 ∧
      Step.slackPost ∉ (leadHandler ⟨some "a@b.com", none, none, some "asap proposal", none⟩
        ⟨true, false, true, true⟩).2) ∧
    Step.diskAppend ∈ (leadHandler ⟨some "a@b.com", none, none, some "asap proposal", none⟩
      ⟨false, true, true, true⟩).2 :=
  ⟨(append_failure_is_fatal ⟨some "a@b.com", none, none, some "asap proposal", none⟩
      ⟨true, false, true, true⟩).1 rfl (by decide),
    (append_failure_is_fatal ⟨some "a@b.com", none, none, some "asap proposal", none⟩
      ⟨false, true, true, true⟩).2 rfl (by decide)⟩

end LeadQual
